import Mathlib

/-!
Verification development for an Obsidian-to-Google-Calendar task sync plugin.

The definitions below are a shallow embedding of the TypeScript sources:
front-matter data is an insertion-ordered association list, JavaScript
exceptions are an explicit `Except`, the host environment (date parsing,
ISO rendering, JSON parsing, file renaming) is a record of oracle
functions, and remote calendar traffic is recorded as an explicit trace
of calls answered by a gateway oracle.
-/

namespace GCalSync

/-! ## Front-matter data model -/

/-- A note front-matter block: insertion-ordered key/value pairs. -/
abbrev TaskData := List (String × String)

/-- JavaScript property read `data[k]`: first binding wins, absent keys give `none`. -/
def getKey (data : TaskData) (k : String) : Option String :=
  (data.find? (fun kv => kv.1 == k)).map (fun kv => kv.2)

/-- JavaScript property assignment `data[k] = v`: overwrite in place, else append. -/
def setKey (data : TaskData) (k v : String) : TaskData :=
  if data.any (fun kv => kv.1 == k) then
    data.map (fun kv => if kv.1 == k then (k, v) else kv)
  else data ++ [(k, v)]

/-- JavaScript `delete data[k]`. -/
def delKey (data : TaskData) (k : String) : TaskData :=
  data.filter (fun kv => kv.1 != k)

/-- JavaScript truthiness of an optional string property:
`undefined` and the empty string are falsy. -/
def otruthy : Option String → Bool
  | none => false
  | some s => !s.isEmpty

/-! ## JavaScript string primitives

The built-in string methods the plugin relies on, implemented over the
underlying character list so that concrete inputs evaluate inside proofs. -/

/-- Build a string back from its characters. -/
def charsToStr (cs : List Char) : String := ⟨cs⟩

/-- Whitespace trim on both ends. -/
def jsTrim (s : String) : String :=
  ⟨((s.data.dropWhile Char.isWhitespace).reverse.dropWhile Char.isWhitespace).reverse⟩

/-- Does the string start with the pattern? -/
def jsStartsWith (s pat : String) : Bool :=
  pat.data.isPrefixOf s.data

/-- Does `pat` occur somewhere in `cs`? -/
def containsSub (pat : List Char) : List Char → Bool
  | [] => pat.isEmpty
  | c :: cs => pat.isPrefixOf (c :: cs) || containsSub pat cs

/-- Substring containment. -/
def jsIncludes (s pat : String) : Bool := containsSub pat.data s.data

/-- Fuel-bounded splitter on a non-empty separator; with fuel at least the
input length every step consumes at least one character, so the fallback
case is unreachable in practice. -/
def splitOnFuel (sep : List Char) : Nat → List Char → List Char → List (List Char)
  | _, [], acc => [acc.reverse]
  | 0, cs, acc => [acc.reverse ++ cs]
  | fuel + 1, c :: cs, acc =>
    if sep.isPrefixOf (c :: cs) then
      acc.reverse :: splitOnFuel sep fuel ((c :: cs).drop sep.length) []
    else
      splitOnFuel sep fuel cs (c :: acc)

/-- Split on every occurrence of a non-empty separator. -/
def jsSplit (s sep : String) : List String :=
  (splitOnFuel sep.data s.data.length s.data []).map charsToStr

/-! ## JavaScript exceptions and host environment -/

/-- A thrown JavaScript value as observed by a `catch` block. -/
inductive JsError where
  | typeError (msg : String)
  | error (msg : String)
  | gaxios (code : Nat) (msg : String)
deriving DecidableEq, Repr

/-- The `.message` field read in every catch block. -/
def JsError.message : JsError → String
  | .typeError m => m
  | .error m => m
  | .gaxios _ m => m

/-- Host primitives the plugin calls but does not implement:
`new Date(s).getTime()` (`none` models an invalid date), `Date.now`,
`Date.toISOString`, `JSON.parse` (abstracted to a normal form), and the
result of `vault.rename` (`some msg` models a rejected rename). -/
structure JsEnv where
  parseDate : String → Option Int
  now : Int
  isoString : Int → String
  jsonParse : String → Except String String
  renameErr : String → String → Option String

/-! ## Calendar events and field mappings -/

/-- Google event start/end: date-only (all-day) or full timestamp. -/
inductive EventTime where
  | date (d : String)
  | dateTime (dt : String)
deriving DecidableEq, Repr

/-- The event body assembled by the field mapper (`Schema$Event` fields the
plugin sets). `none` means the field is absent from the object. -/
structure CalendarEvent where
  id : Option String := none
  start : Option EventTime := none
  end_ : Option EventTime := none
  summary : Option String := none
  description : Option String := none
  location : Option String := none
  attendees : Option String := none
  colorId : Option String := none
  reminders : Option String := none
  recurrence : Option (List String) := none
  visibility : Option String := none
deriving DecidableEq, Repr

/-- `settings.fieldMappings`: role to front-matter key. The optional roles
are `string | undefined` in the source. -/
structure FieldMappings where
  start : String
  end_ : String
  name : String
  description : Option String := none
  location : Option String := none
  status : Option String := none
  attendees : Option String := none
  colorId : Option String := none
  reminders : Option String := none
  recurrence : Option String := none
  visibility : Option String := none
deriving DecidableEq, Repr

/-- The slice of a `TFile` handle the sync logic touches. -/
structure TFile where
  path : String
  name : String
  basename : String
  ctime : Int
  mtime : Int
deriving DecidableEq, Repr

/-- An extracted task: display name, mutable front-matter copy, note handle. -/
structure Task where
  name : String
  data : TaskData
  file : TFile
deriving DecidableEq, Repr

/-! ## Field mapper (`mapYamlToEvent`, fileHelpers) -/

/-- String interpolation of a possibly-undefined value. -/
def jsShow : Option String → String
  | none => "undefined"
  | some s => s

/-- Reading `.length` of a possibly-undefined value throws a TypeError. -/
def jsLength : Option String → Except JsError Nat
  | none => .error (.typeError "Cannot read property length of undefined")
  | some s => .ok s.length

/-- `taskData[k] ? new Date(taskData[k]) : new Date()` as a millisecond
instant; `none` is an invalid date. -/
def resolveInstant (env : JsEnv) (v : Option String) : Option Int :=
  match v with
  | some s => if s.isEmpty then some env.now else env.parseDate s
  | none => some env.now

/-- `toISOString().split(T)[0]`: the date part of an ISO timestamp. -/
def isoDatePart (s : String) : String :=
  ⟨s.data.takeWhile (fun c => c ≠ 'T')⟩

/-- `taskData[raw].length === 10 && taskData[rawEnd].length === 10` with
JavaScript short-circuit evaluation; dereferencing `undefined` throws. -/
def allDayCheck (rawStart rawEnd : Option String) : Except JsError Bool := do
  let lenStart ← jsLength rawStart
  if lenStart == 10 then
    let lenEnd ← jsLength rawEnd
    pure (lenEnd == 10)
  else
    pure false

/-- Copy an optional role: the value, when both the role is mapped to a
truthy key and the task data holds a truthy value under that key. -/
def optField (m : Option String) (data : TaskData) : Option String :=
  match m with
  | some k => if !k.isEmpty && otruthy (getKey data k) then getKey data k else none
  | none => none

/-- `JSON.parse` of an optional serialized sub-document. -/
def parseOptJson (env : JsEnv) (v : Option String) : Except JsError (Option String) :=
  match v with
  | none => .ok none
  | some s =>
    match env.jsonParse s with
    | .ok j => .ok (some j)
    | .error e => .error (.error e)

/-- Tail of `mapYamlToEvent` after start/end are settled: summary fallback,
optional roles, the unconditional description overwrite with the note body,
and the back-reference copy into `id`. -/
def finishEvent (env : JsEnv) (mappings : FieldMappings) (taskData : TaskData)
    (file : TFile) (body : String) (ev0 : CalendarEvent) : Except JsError CalendarEvent :=
  let summary :=
    match getKey taskData mappings.name with
    | some s => if s.isEmpty then file.basename else s
    | none => file.basename
  match parseOptJson env (optField mappings.attendees taskData) with
  | .error e => .error e
  | .ok att =>
    match parseOptJson env (optField mappings.reminders taskData) with
    | .error e => .error e
    | .ok rem =>
      .ok { ev0 with
        summary := some summary
        -- the mapped description role is overwritten unconditionally by the note body
        description := some body
        location := optField mappings.location taskData
        attendees := att
        colorId := optField mappings.colorId taskData
        reminders := rem
        recurrence := (optField mappings.recurrence taskData).map (fun s => jsSplit s ",")
        visibility := optField mappings.visibility taskData
        id := if otruthy (getKey taskData "googleEventId") then getKey taskData "googleEventId"
              else ev0.id }

/-- `mapYamlToEvent(plugin, taskData, file)` (fileHelpers): resolve start/end
with a default of now, reject invalid instants, classify all-day by literal
length 10 of both raw values, then fill the remaining event fields.
`body` is the note content `vault.read(file)` returns. -/
def mapYamlToEvent (env : JsEnv) (mappings : FieldMappings) (taskData : TaskData)
    (file : TFile) (body : String) : Except JsError CalendarEvent :=
  let rawStart := getKey taskData mappings.start
  let rawEnd := getKey taskData mappings.end_
  match resolveInstant env rawStart, resolveInstant env rawEnd with
  | some startMs, some endMs =>
    match allDayCheck rawStart rawEnd with
    | .error e => .error e
    | .ok isAllDayEvent =>
      let ev0 : CalendarEvent :=
        if isAllDayEvent then
          { start := some (.date (isoDatePart (env.isoString startMs)))
            end_ := some (.date (isoDatePart (env.isoString endMs))) }
        else
          { start := some (.dateTime (env.isoString startMs))
            end_ := some (.dateTime (env.isoString endMs)) }
      finishEvent env mappings taskData file body ev0
  | _, _ =>
    .error (.error ("Invalid time value for start (" ++ jsShow rawStart ++
      ") or end (" ++ jsShow rawEnd ++ ")"))

/-! ## Vault model -/

/-- Cached front-matter: the `tags` entry (a list, possibly absent) plus the
string-valued fields the mapper reads. -/
structure Fm where
  tags : Option (List String) := none
  fields : TaskData := []
deriving DecidableEq, Repr

/-- A markdown file of the vault together with its metadata-cache entry. -/
structure VaultFile where
  path : String
  name : String
  basename : String
  ctime : Int
  mtime : Int
  frontmatter : Option Fm := none
  content : String := ""
deriving DecidableEq, Repr

/-- The vault contents, in `getMarkdownFiles()` order. -/
abbrev World := List VaultFile

/-- `vault.read(file)` by path (a missing file reads as empty). -/
def worldRead (w : World) (p : String) : String :=
  (((w.find? (fun f => f.path == p)).map (fun f => f.content))).getD ""

/-- `vault.modify(file, content)` by path. -/
def worldModify (w : World) (p c : String) : World :=
  w.map (fun f => if f.path == p then { f with content := c } else f)

/-- The `TFile` handle of a vault file. -/
def VaultFile.handle (f : VaultFile) : TFile :=
  { path := f.path, name := f.name, basename := f.basename, ctime := f.ctime, mtime := f.mtime }

/-! ## File helpers (fileHelpers) -/

/-- `path.join(a, b)` for the simple two-segment case used by the plugin. -/
def pathJoin (a b : String) : String := a ++ "/" ++ b

/-- `String.prototype.indexOf(pat, start)`: first index at or after `start`
where `pat` occurs, `none` when absent. -/
def jsStringIndexOfFrom (s pat : String) (start : Nat) : Option Nat :=
  (List.range (s.data.length + 1)).find?
    (fun i => decide (start ≤ i) && pat.data.isPrefixOf (s.data.drop i))

/-- Serialize a front-matter block: `key: value` lines between `---` fences. -/
def yamlBlock (data : TaskData) : String :=
  "---\n" ++ String.intercalate "\n" (data.map (fun kv => kv.1 ++ ": " ++ kv.2)) ++ "\n---\n"

/-- `saveTaskDataToYaml` (fileHelpers): rebuild the front-matter block and
keep the trimmed body found after the second `---` (searched from index 3). -/
def saveTaskDataToYaml (w : World) (file : TFile) (data : TaskData) : World :=
  let yamlContent := yamlBlock data
  let fileContent := worldRead w file.path
  let rest :=
    match jsStringIndexOfFrom fileContent "---" 3 with
    | some i => jsTrim (fileContent.drop (i + 3))
    | none => jsTrim (fileContent.drop 2)
  worldModify w file.path (yamlContent ++ "\n" ++ rest)

/-- `moveTaskToFolder` (fileHelpers): rename the note into the target folder;
a rejected rename is re-thrown. Returns the updated vault and file handle. -/
def moveTaskToFolder (env : JsEnv) (w : World) (file : TFile)
    (targetFolderPath : String) : Except JsError (World × TFile) :=
  let targetFilePath := pathJoin targetFolderPath file.name
  match env.renameErr file.path targetFilePath with
  | some msg => .error (.error msg)
  | none =>
    .ok (w.map (fun f => if f.path == file.path then { f with path := targetFilePath } else f),
         { file with path := targetFilePath })

/-! ## Folder topology resolver (`findMatchingFolderPairs`, fileHelpers) -/

mutual
/-- A folder of the vault tree: name, vault-relative path, subfolders. -/
inductive TFolder where
  | node (name : String) (path : String) (children : TFolderChildren)
deriving Repr

/-- The subfolder list of a folder. -/
inductive TFolderChildren where
  | nil
  | cons (head : TFolder) (tail : TFolderChildren)
deriving Repr
end

/-- `path.dirname`. -/
def dirname (p : String) : String :=
  let parts := jsSplit p "/"
  if parts.length ≤ 1 then "." else String.intercalate "/" parts.dropLast

/-- A matched open/done folder pair. -/
structure FolderPair where
  searchPath : String
  donePath : String
deriving DecidableEq, Repr

/-- Partially-filled pair records keyed by parent path, in insertion order. -/
abbrev PairRec := List (String × (Option String × Option String))

/-- Record a search-folder (`isSearch`) or done-folder path under its parent. -/
def recordPath (isSearch : Bool) (acc : PairRec) (parent fpath : String) : PairRec :=
  if acc.any (fun kv => kv.1 == parent) then
    acc.map (fun kv =>
      if kv.1 == parent then
        (kv.1, if isSearch then (some fpath, kv.2.2) else (kv.2.1, some fpath))
      else kv)
  else
    acc ++ [(parent, if isSearch then (some fpath, none) else (none, some fpath))]

mutual
/-- The recursive traversal of `findMatchingFolderPairs`: check the folder
name, then recurse into the subfolders, threading the record. -/
def recurseFolder (searchName doneName : String) : TFolder → PairRec → PairRec
  | .node n p cs, acc =>
    let acc1 :=
      if n == searchName then recordPath true acc (dirname p) p
      else if n == doneName then recordPath false acc (dirname p) p
      else acc
    recurseFolderChildren searchName doneName cs acc1

/-- Visit each subfolder in order. -/
def recurseFolderChildren (searchName doneName : String) : TFolderChildren → PairRec → PairRec
  | .nil, acc => acc
  | .cons c rest, acc =>
    recurseFolderChildren searchName doneName rest (recurseFolder searchName doneName c acc)
end

/-- `findMatchingFolderPairs`: traverse under the root (when it resolves to
a folder) and keep only parents where both paths were recorded. -/
def findMatchingFolderPairs (rootFolder : Option TFolder) (searchName doneName : String) :
    List (String × FolderPair) :=
  match rootFolder with
  | some root =>
    (recurseFolder searchName doneName root []).filterMap (fun kv =>
      match kv.2 with
      | (some sp, some dp) => some (kv.1, { searchPath := sp, donePath := dp })
      | _ => none)
  | none => []

/-! ## Task extractor (`fetchObsidianTasks`, dataFetchers) -/

/-- `fetchObsidianTasks(plugin, tag)`: compute the folder pairs, keep the
markdown files under some search path, then keep those whose cached
front-matter has a `tags` list containing the tag. -/
def fetchObsidianTasks (vault : World) (rootFolder : Option TFolder)
    (searchFolderName doneFolderName tag : String) : List Task :=
  let folderPairs := findMatchingFolderPairs rootFolder searchFolderName doneFolderName
  let taskFiles := vault.filter (fun f =>
    folderPairs.any (fun pr => jsStartsWith f.path pr.2.searchPath))
  taskFiles.filterMap (fun f =>
    match f.frontmatter with
    | some fm =>
      match fm.tags with
      | some tags =>
        if tags.contains tag then
          some { name := f.basename, data := fm.fields, file := f.handle }
        else none
      | none => none
    | none => none)

/-! ## Event gateway -/

/-- A failed provider call as seen by a catch block: `error.code` and
`error.message`. -/
structure GaxErr where
  code : Nat
  message : String
deriving DecidableEq, Repr

/-- One remote calendar call, recorded in issue order. -/
inductive RemoteCall where
  | get (eventId : String)
  | insert (ev : CalendarEvent)
  | update (eventId : Option String) (ev : CalendarEvent)
  | delete (eventId : String)
deriving DecidableEq, Repr

/-- Oracle answering the provider calls of one pass. -/
structure Gateway where
  getr : String → Except GaxErr CalendarEvent
  insertr : CalendarEvent → Except GaxErr String
  updater : Option String → CalendarEvent → Except GaxErr Unit
  deleter : String → Except GaxErr Unit

/-! ## Task and event operators (taskAndEventOperators) -/

/-- `deleteEvent(plugin, eventId)`: delete remotely, wrapping any failure. -/
def deleteEvent (gw : Gateway) (eventId : String) : Except JsError Unit :=
  match gw.deleter eventId with
  | .ok _ => .ok ()
  | .error e =>
    .error (.error ("Failed to delete event with ID: " ++ eventId ++ ": " ++ e.message))

/-- `createEventForTask(plugin, task)`: map the task, insert the event, then
write the returned id back into the task data and persist it to the note.
Returns the calls attempted and either the wrapped error or the updated
vault and task data. -/
def createEventForTask (gw : Gateway) (env : JsEnv) (mappings : FieldMappings)
    (w : World) (task : Task) : List RemoteCall × Except JsError (World × TaskData) :=
  match mapYamlToEvent env mappings task.data task.file (worldRead w task.file.path) with
  | .error e =>
    ([], .error (.error ("Error creating event for task " ++ task.file.basename ++ ": " ++
      e.message)))
  | .ok event =>
    match gw.insertr event with
    | .error e =>
      ([.insert event], .error (.error ("Error creating event for task " ++
        task.file.basename ++ ": " ++ e.message)))
    | .ok createdId =>
      let data2 := setKey task.data "googleEventId" createdId
      ([.insert event], .ok (saveTaskDataToYaml w task.file data2, data2))

/-- `syncTaskToEvent(plugin, task, event)` (calendarSync): map the task,
force the body id to the existing event id, and update remotely. -/
def syncTaskToEvent (gw : Gateway) (env : JsEnv) (mappings : FieldMappings)
    (w : World) (task : Task) (event : CalendarEvent) :
    List RemoteCall × Except JsError Unit :=
  match mapYamlToEvent env mappings task.data task.file (worldRead w task.file.path) with
  | .error e =>
    ([], .error (.error ("Error updating event for task " ++ task.file.basename ++ ": " ++
      e.message)))
  | .ok updatedEvent0 =>
    let updatedEvent := { updatedEvent0 with id := event.id }
    match gw.updater event.id updatedEvent with
    | .error e =>
      ([.update event.id updatedEvent], .error (.error ("Error updating event for task " ++
        task.file.basename ++ ": " ++ e.message)))
    | .ok _ => ([.update event.id updatedEvent], .ok ())

/-! ## Bulk cleanup (`removeGoogleEventIdField`, taskAndEventOperators) -/


/-- `Array.prototype.indexOf(x, start)` on a list of lines. -/
def jsArrayIndexOf (l : List String) (x : String) (start : Nat) : Option Nat :=
  ((l.drop start).findIdx? (fun y => y == x)).map (fun i => i + start)

/-- The filter predicate of `removeGoogleEventIdField`: drop a line that
contains `googleEventId: <id>` (when an id was passed and is truthy), and
otherwise keep it only when its trimmed form does not start with
`googleEventId:`. -/
def keepYamlLine (googleEventId : Option String) (line : String) : Bool :=
  match googleEventId with
  | some gid =>
    if !gid.isEmpty && jsIncludes line ("googleEventId: " ++ gid) then false
    else !(jsStartsWith (jsTrim line) "googleEventId:")
  | none => !(jsStartsWith (jsTrim line) "googleEventId:")

/-- `removeGoogleEventIdField(plugin, file, googleEventId)` as a content
transformation: locate the `---` fences, filter the block lines, and
rewrite the file only when some line was dropped. -/
def removeGoogleEventIdField (content : String) (googleEventId : Option String) : String :=
  let lines := jsSplit content "\n"
  match jsArrayIndexOf lines "---" 0 with
  | none => content
  | some yamlStartIndex =>
    match jsArrayIndexOf lines "---" (yamlStartIndex + 1) with
    | none => content
    | some yamlEndIndex =>
      let yamlContent := (lines.drop (yamlStartIndex + 1)).take (yamlEndIndex - (yamlStartIndex + 1))
      let updatedYamlContent := yamlContent.filter (keepYamlLine googleEventId)
      if yamlContent.length ≠ updatedYamlContent.length then
        String.intercalate "\n"
          (lines.take (yamlStartIndex + 1) ++ updatedYamlContent ++ lines.drop yamlEndIndex)
      else content

/-! ## OAuth credential handling (oauth) -/

/-- The OAuth2 token set the plugin inspects. -/
structure Credentials where
  refresh_token : Option String := none
  expiry_date : Option Int := none
deriving DecidableEq, Repr

/-- The OAuth2 client: a credential holder. -/
structure OAuthClient where
  credentials : Credentials
deriving DecidableEq, Repr

/-- External OAuth primitives: decrypt-and-parse of the stored blob, the
refresh-token exchange, and encrypt-and-serialize for persisting. -/
structure OAuthEnv where
  decryptParse : String → Option Credentials
  exchange : Credentials → Except String Credentials
  encryptSerialize : Credentials → String

/-- Engine-relevant persisted settings. -/
structure PluginSettings where
  fieldMappings : FieldMappings
  deleteStatus : String
  logFilePath : String := ""
  taskFolderPath : String
  searchFolderName : String
  doneFolderName : String
  lastSyncDate : Option String := none
  debugMode : Bool := false
  encTokenData : Option String := none
deriving DecidableEq, Repr

/-- `loadAndSetTokens(plugin)`: decrypt the stored token blob and (re)build
the client with those credentials; a parse failure clears the client. -/
def loadAndSetTokens (oenv : OAuthEnv) (settings : PluginSettings)
    (client : Option OAuthClient) : Option OAuthClient :=
  match settings.encTokenData with
  | none => client
  | some enc =>
    if (jsTrim enc).isEmpty then client
    else
      match oenv.decryptParse enc with
      | some creds => some { credentials := creds }
      | none => none

/-- `refreshAccessToken(plugin)`: with a client and a truthy refresh token,
perform the refresh exchange and persist the encrypted result; otherwise
log a notice and continue. Returns updated settings, client, notices. -/
def refreshAccessToken (oenv : OAuthEnv) (settings : PluginSettings)
    (client : Option OAuthClient) :
    PluginSettings × Option OAuthClient × List String :=
  match client with
  | none => (settings, none, [])
  | some c =>
    if !otruthy c.credentials.refresh_token then
      (settings, some c, ["Failed to refresh access token."])
    else
      match oenv.exchange c.credentials with
      | .error _ => (settings, some c, ["Failed to refresh access token."])
      | .ok updatedTokens =>
        ({ settings with encTokenData := some (oenv.encryptSerialize updatedTokens) },
         some { credentials := updatedTokens }, [])

/-! ## Sync orchestrator (`syncGoogleCalendarWithObsidian`, calendarSync) -/

/-- Configuration slice the per-task loop reads. -/
structure SyncCfg where
  fieldMappings : FieldMappings
  deleteStatus : String
deriving Repr

/-- `task.data[fieldMappings.status]?.trim() === deleteStatus.trim()`:
optional chaining makes an unreadable status compare unequal. -/
def statusMatchesDelete (cfg : SyncCfg) (data : TaskData) : Bool :=
  match cfg.fieldMappings.status with
  | some k =>
    match getKey data k with
    | some s => jsTrim s == jsTrim cfg.deleteStatus
    | none => false
  | none => false

/-- How one iteration of the per-task loop ended. -/
inductive Outcome where
  | completed
  | deletedBranch
  | threw (e : JsError)
deriving DecidableEq, Repr

/-- Did this iteration run the `processedCount++` lines? The deletion branch
leaves the loop body through `continue` before them. -/
def Outcome.counted : Outcome → Bool
  | .deletedBranch => false
  | _ => true

/-- Observable result of one iteration of the per-task loop. -/
structure StepOut where
  world : World
  calls : List RemoteCall
  data : TaskData
  file : TFile
  outcome : Outcome
deriving DecidableEq, Repr

/-- The body of the per-task loop (calendarSync lines 102 to 163): resolve an
existing event treating 404 as absence, run the deletion branch when the
status matches, else update or create; any throw is caught at this boundary. -/
def processTask (cfg : SyncCfg) (gw : Gateway) (env : JsEnv)
    (folderPairs : List (String × FolderPair)) (w : World) (task : Task) : StepOut :=
  let gidOpt := getKey task.data "googleEventId"
  let getRes : List RemoteCall × Except JsError (Option CalendarEvent) :=
    if otruthy gidOpt then
      let gid := gidOpt.getD ""
      match gw.getr gid with
      | .ok ev => ([.get gid], .ok (some ev))
      | .error e =>
        if e.code == 404 then ([.get gid], .ok none)
        else ([.get gid], .error (.gaxios e.code e.message))
    else ([], .ok none)
  match getRes with
  | (calls1, .error e) =>
    { world := w, calls := calls1, data := task.data, file := task.file, outcome := .threw e }
  | (calls1, .ok matchingEvent) =>
    if statusMatchesDelete cfg task.data then
      let delStep : List RemoteCall × Except JsError (World × TaskData) :=
        if otruthy gidOpt then
          match deleteEvent gw (gidOpt.getD "") with
          | .error e => ([.delete (gidOpt.getD "")], .error e)
          | .ok _ =>
            let data2 := delKey task.data "googleEventId"
            ([.delete (gidOpt.getD "")], .ok (saveTaskDataToYaml w task.file data2, data2))
        else ([], .ok (w, task.data))
      match delStep with
      | (calls2, .error e) =>
        { world := w, calls := calls1 ++ calls2, data := task.data, file := task.file,
          outcome := .threw e }
      | (calls2, .ok (w2, data2)) =>
        let w3 := saveTaskDataToYaml w2 task.file data2
        match folderPairs.find? (fun pr => jsStartsWith task.file.path pr.2.searchPath) with
        | some pr =>
          match moveTaskToFolder env w3 task.file pr.2.donePath with
          | .error e =>
            { world := w3, calls := calls1 ++ calls2, data := data2, file := task.file,
              outcome := .threw e }
          | .ok (w4, file2) =>
            { world := w4, calls := calls1 ++ calls2, data := data2, file := file2,
              outcome := .deletedBranch }
        | none =>
          { world := w3, calls := calls1 ++ calls2, data := data2, file := task.file,
            outcome := .deletedBranch }
    else
      match matchingEvent with
      | some ev =>
        match syncTaskToEvent gw env cfg.fieldMappings w task ev with
        | (calls2, .error e) =>
          { world := w, calls := calls1 ++ calls2, data := task.data, file := task.file,
            outcome := .threw e }
        | (calls2, .ok _) =>
          { world := w, calls := calls1 ++ calls2, data := task.data, file := task.file,
            outcome := .completed }
      | none =>
        match createEventForTask gw env cfg.fieldMappings w task with
        | (calls2, .error e) =>
          { world := w, calls := calls1 ++ calls2, data := task.data, file := task.file,
            outcome := .threw e }
        | (calls2, .ok (w2, data2)) =>
          { world := w2, calls := calls1 ++ calls2, data := data2, file := task.file,
            outcome := .completed }

/-- The sequential per-task loop, threading the vault. -/
def runTaskLoop (cfg : SyncCfg) (gw : Gateway) (env : JsEnv)
    (folderPairs : List (String × FolderPair)) :
    World → List Task → World × List StepOut
  | w, [] => (w, [])
  | w, task :: rest =>
    let s := processTask cfg gw env folderPairs w task
    let rest2 := runTaskLoop cfg gw env folderPairs s.world rest
    (rest2.1, s :: rest2.2)

/-- The error-log line pushed at the per-task catch boundary. -/
def errLogEntry (path msg : String) : String :=
  "Error processing task \"" ++ path ++ "\": " ++ msg

/-- Error-log lines contributed by one loop iteration. -/
def stepLogs (s : StepOut) : List String :=
  match s.outcome with
  | .threw e => [errLogEntry s.file.path e.message]
  | _ => []

/-- The incremental filter (calendarSync lines 84 to 92): in quick mode with
a stored checkpoint keep tasks whose ctime or mtime is strictly newer (an
unparseable checkpoint compares like NaN and keeps nothing); otherwise keep
every task. -/
def tasksToProcess (isQuickSync : Bool) (lastSyncDate : Option (Option Int))
    (tasks : List Task) : List Task :=
  match isQuickSync, lastSyncDate with
  | true, some t? =>
    tasks.filter (fun task =>
      match t? with
      | some t => decide (task.file.ctime > t) || decide (task.file.mtime > t)
      | none => false)
  | _, _ => tasks

/-- The precondition stops of a pass (notice returns and the thrown
status-configuration error). -/
inductive PassAbort where
  | noOAuthClient
  | noTokenData
  | statusNotConfigured
  | noFolderPairs
  | noTasks
  | noTasksAfterFilter
deriving DecidableEq, Repr

/-- Observable result of a pass that reached the per-task loop. -/
structure PassOutput where
  world : World
  settings : PluginSettings
  totalTasks : Nat
  steps : List StepOut
  processedCount : Nat
  errorLogs : List String
deriving DecidableEq, Repr

/-- `syncGoogleCalendarWithObsidian(plugin, tag, isQuickSync)`: preconditions,
token refresh, folder-pair discovery, task extraction and scoping, the
incremental filter, the per-task loop, and the unconditional checkpoint
update at the end of the pass. -/
def syncGoogleCalendarWithObsidian (oenv : OAuthEnv) (gw : Gateway) (env : JsEnv)
    (settings : PluginSettings) (client0 : Option OAuthClient)
    (world : World) (rootFolder : Option TFolder)
    (tag : String) (isQuickSync : Bool) : Except PassAbort PassOutput :=
  let client1 :=
    match client0 with
    | none => loadAndSetTokens oenv settings none
    | some c => some c
  match client1 with
  | none => .error .noOAuthClient
  | some _ =>
    if !otruthy settings.encTokenData then .error .noTokenData
    else
      match settings.fieldMappings.status with
      | none => .error .statusNotConfigured
      | some stKey =>
        if (jsTrim stKey).isEmpty then .error .statusNotConfigured
        else
          let refreshed := refreshAccessToken oenv settings client1
          let settings2 := refreshed.1
          let folderPairs :=
            findMatchingFolderPairs rootFolder settings2.searchFolderName settings2.doneFolderName
          if folderPairs.isEmpty then .error .noFolderPairs
          else
            let tasks := fetchObsidianTasks world rootFolder
              settings2.searchFolderName settings2.doneFolderName tag
            let filteredTasks := tasks.filter (fun t =>
              folderPairs.any (fun pr => jsStartsWith t.file.path pr.2.searchPath))
            if filteredTasks.isEmpty then .error .noTasks
            else
              let lastSync : Option (Option Int) :=
                match settings2.lastSyncDate with
                | some s => if s.isEmpty then none else some (env.parseDate s)
                | none => none
              let tasksToGo := tasksToProcess isQuickSync lastSync filteredTasks
              if tasksToGo.isEmpty then .error .noTasksAfterFilter
              else
                let cfg : SyncCfg :=
                  { fieldMappings := settings2.fieldMappings, deleteStatus := settings2.deleteStatus }
                let looped := runTaskLoop cfg gw env folderPairs world tasksToGo
                let steps := looped.2
                .ok { world := looped.1
                      settings := { settings2 with lastSyncDate := some (env.isoString env.now) }
                      totalTasks := tasksToGo.length
                      steps := steps
                      processedCount := (steps.filter (fun s => s.outcome.counted)).length
                      errorLogs := steps.flatMap stepLogs }

/-! ## Concrete test fixtures -/

/-- Concrete host environment for witness evaluations. -/
def envT : JsEnv where
  parseDate := fun s =>
    if s == "2024-05-01" then some 1714521600000
    else if s == "2024-05-02" then some 1714608000000
    else if s == "2024-05-02T10:00:00" then some 1714644000000
    else if s == "2024-01-01T00:00:00.000Z" then some 1704067200000
    else none
  now := 1700000000000
  isoString := fun t =>
    if t == 1714521600000 then "2024-05-01T00:00:00.000Z"
    else if t == 1714608000000 then "2024-05-02T00:00:00.000Z"
    else if t == 1714644000000 then "2024-05-02T10:00:00.000Z"
    else "1970-01-01T00:00:00.000Z"
  jsonParse := fun s => .ok s
  renameErr := fun _ _ => none

/-- Default-style field mappings with the status role configured. -/
def mappingsT : FieldMappings where
  start := "due"
  end_ := "due"
  name := "name"
  status := some "status"

/-- A task root with one OPEN/DONE sibling pair. -/
def rootT : TFolder :=
  .node "Tasks" "Tasks"
    (.cons (.node "OPEN" "Tasks/OPEN" .nil) (.cons (.node "DONE" "Tasks/DONE" .nil) .nil))

/-- A tagged task note inside the search folder. -/
def fileT : VaultFile where
  path := "Tasks/OPEN/t1.md"
  name := "t1.md"
  basename := "t1"
  ctime := 100
  mtime := 200
  frontmatter := some { tags := some ["task"], fields := [("due", "2024-05-01"), ("status", "open")] }
  content := "---\ndue: 2024-05-01\nstatus: open\n---\nbody"

/-- A one-note vault. -/
def worldT : World := [fileT]

/-- Gateway oracle: every get is a 404, inserts assign id E1. -/
def gwT : Gateway where
  getr := fun _ => .error { code := 404, message := "Not Found" }
  insertr := fun _ => .ok "E1"
  updater := fun _ _ => .ok ()
  deleter := fun _ => .ok ()

/-- A client holding a refresh token. -/
def clientT : OAuthClient where
  credentials := { refresh_token := some "rt", expiry_date := none }

/-- OAuth oracle: exchange echoes the credentials, encryption is a constant. -/
def oenvT : OAuthEnv where
  decryptParse := fun _ => some clientT.credentials
  exchange := fun c => .ok c
  encryptSerialize := fun _ => "enc2"

/-- Settings matching the fixtures above. -/
def settingsT : PluginSettings where
  fieldMappings := mappingsT
  deleteStatus := "done-status"
  taskFolderPath := "Tasks"
  searchFolderName := "OPEN"
  doneFolderName := "DONE"
  encTokenData := some "enc1"

/-- The note handle of the fixture note. -/
def fileHT : TFile := fileT.handle

/-- The loop configuration matching `settingsT`. -/
def cfgT : SyncCfg where
  fieldMappings := mappingsT
  deleteStatus := "done-status"

/-- The folder pairs found under `rootT`. -/
def pairsT : List (String × FolderPair) :=
  [("Tasks", { searchPath := "Tasks/OPEN", donePath := "Tasks/DONE" })]

/-- An all-day task data map for the classification witness. -/
def dataC4 : TaskData := [("due", "2024-05-01")]

/-- The event the mapper produces on `dataC4`. -/
def evC4 : CalendarEvent :=
  match mapYamlToEvent envT mappingsT dataC4 fileHT "body" with
  | .ok v => v
  | .error _ => {}

/-- A task carrying a stale back-reference. -/
def taskC5 : Task where
  name := "t1"
  data := [("due", "2024-05-01"), ("status", "open"), ("googleEventId", "OLD")]
  file := fileHT

/-- The event the mapper produces for `taskC5`. -/
def evC5 : CalendarEvent :=
  match mapYamlToEvent envT mappingsT taskC5.data taskC5.file (worldRead worldT taskC5.file.path) with
  | .ok v => v
  | .error _ => {}

/-- A delete-marked task with no back-reference. -/
def taskC9 : Task where
  name := "t1"
  data := [("due", "2024-05-01"), ("status", "done-status")]
  file := fileHT

/-- A task whose start value does not parse as an instant. -/
def taskC10 : Task where
  name := "t1"
  data := [("due", "junk"), ("status", "open")]
  file := fileHT

/-- A tagged note living outside every search folder. -/
def fileC7 : VaultFile where
  path := "Notes/x.md"
  name := "x.md"
  basename := "x"
  ctime := 0
  mtime := 0
  frontmatter := some { tags := some ["task"], fields := [] }

/-- Settings with a recognizable stored credential blob. -/
def settingsC8 : PluginSettings := { settingsT with encTokenData := some "enc-old" }

/-- A client whose token expires a full hour after now. -/
def clientC8 : OAuthClient where
  credentials := { refresh_token := some "rt", expiry_date := some (1700000000000 + 3600000) }

/-- OAuth oracle whose exchange succeeds with fresh tokens. -/
def oenvC8 : OAuthEnv where
  decryptParse := fun _ => none
  exchange := fun _ => .ok { refresh_token := some "rt2", expiry_date := some 9999999999999 }
  encryptSerialize := fun _ => "enc-new"

/-- The fixture pass over the one-note vault. -/
def syncResT : Except PassAbort PassOutput :=
  syncGoogleCalendarWithObsidian oenvT gwT envT settingsT (some clientT) worldT (some rootT)
    "task" false

/-- The output of the fixture pass. -/
def outT : PassOutput :=
  match syncResT with
  | .ok o => o
  | .error _ =>
    { world := [], settings := settingsT, totalTasks := 0, steps := [], processedCount := 0,
      errorLogs := [] }

/-- First run of the deletion branch on `taskC9`. -/
def s1C9 : StepOut := processTask cfgT gwT envT pairsT worldT taskC9

/-- Second run of the deletion branch, from the moved location. -/
def s2C9 : StepOut :=
  processTask cfgT gwT envT pairsT s1C9.world { taskC9 with data := s1C9.data, file := s1C9.file }

/-- The removal condition `removeGoogleEventIdField` actually implements for
a deleted id `gid`: the line contains `googleEventId: gid` as a substring,
or its trimmed form starts with `googleEventId:` (any value). -/
def yamlLineRemoved (gid : String) (line : String) : Bool :=
  (!gid.isEmpty && jsIncludes line ("googleEventId: " ++ gid)) ||
    jsStartsWith (jsTrim line) "googleEventId:"

/-! ## Supporting lemmas -/

/-- With both raw values present, the all-day test is a plain conjunction of
the two length checks. -/
theorem allDayCheck_some (s e : String) :
    allDayCheck (some s) (some e) = .ok (s.length == 10 && e.length == 10) := by
  by_cases h : s.length == 10 <;>
    simp [allDayCheck, jsLength, h, Bind.bind, Except.bind, pure, Except.pure]

/-- The tail of the field mapper never touches the start/end fields. -/
theorem finishEvent_ok_start_end {env : JsEnv} {m : FieldMappings} {d : TaskData}
    {f : TFile} {b : String} {ev0 ev : CalendarEvent}
    (h : finishEvent env m d f b ev0 = .ok ev) :
    ev.start = ev0.start ∧ ev.end_ = ev0.end_ := by
  unfold finishEvent at h
  repeat' split at h
  all_goals first
    | (solve | simp at h)
    | (simp only [Except.ok.injEq] at h; subst h; exact ⟨rfl, rfl⟩)

/-- The loop produces one step per task. -/
theorem runTaskLoop_length (cfg : SyncCfg) (gw : Gateway) (env : JsEnv)
    (pairs : List (String × FolderPair)) :
    ∀ (ts : List Task) (w : World),
      ((runTaskLoop cfg gw env pairs w ts).2).length = ts.length := by
  intro ts
  induction ts with
  | nil => intro w; rfl
  | cons t rest ih => intro w; simp [runTaskLoop, ih]

/-! ## Claim theorems -/

/-- The filter of the cleanup sweep keeps a line exactly when the
implemented removal condition does not hold. -/
theorem keepYamlLine_eq_not_removed (gid : String) (line : String) :
    keepYamlLine (some gid) line = !yamlLineRemoved gid line := by
  unfold keepYamlLine yamlLineRemoved
  cases h1 : (!gid.isEmpty && jsIncludes line ("googleEventId: " ++ gid)) <;> simp [h1]

/-- Claim C4: when both the resolved start and end raw strings are present
and the mapper succeeds, the produced event is all-day (date-only start and
end) exactly when both raw strings have length 10, and timed (full ISO
timestamps on both ends) when at least one has a different length; the two
forms are never mixed within one event. -/
theorem mapYamlToEvent_allday_classification
    (env : JsEnv) (m : FieldMappings) (data : TaskData) (file : TFile) (body : String)
    (s e : String) (ev : CalendarEvent)
    (hs : getKey data m.start = some s)
    (he : getKey data m.end_ = some e)
    (hok : mapYamlToEvent env m data file body = Except.ok ev) :
    ((s.length = 10 ∧ e.length = 10) →
      ∃ d1 d2, ev.start = some (EventTime.date d1) ∧ ev.end_ = some (EventTime.date d2))
    ∧ (¬(s.length = 10 ∧ e.length = 10) →
      ∃ t1 t2, ev.start = some (EventTime.dateTime t1) ∧ ev.end_ = some (EventTime.dateTime t2)) := by
  simp only [mapYamlToEvent, hs, he] at hok
  split at hok
  · split at hok
    · rename_i err heq
      rw [allDayCheck_some] at heq
      simp at heq
    · rename_i isAllDay heq
      rw [allDayCheck_some] at heq
      simp only [Except.ok.injEq] at heq
      obtain ⟨h1, h2⟩ := finishEvent_ok_start_end hok
      subst heq
      constructor
      · intro hb
        have hbb : (s.length == 10 && e.length == 10) = true := by
          simp [hb.1, hb.2]
        simp only [hbb, if_true] at h1 h2
        exact ⟨_, _, h1, h2⟩
      · intro hb
        have hbb : (s.length == 10 && e.length == 10) = false := by
          rcases Bool.eq_false_or_eq_true (s.length == 10 && e.length == 10) with ht | hf
          · exact absurd (by simpa [Bool.and_eq_true, beq_iff_eq] using ht) hb
          · exact hf
        simp only [hbb, Bool.false_eq_true, if_false] at h1 h2
        exact ⟨_, _, h1, h2⟩
  · simp at hok

/-- Witness for C4: on a concrete map whose start and end both resolve to
the ten-character literal 2024-05-01, the mapper succeeds with a date-only
event. -/
theorem mapYamlToEvent_allday_classification_witness :
    getKey dataC4 mappingsT.start = some "2024-05-01"
    ∧ mapYamlToEvent envT mappingsT dataC4 fileHT "body" = Except.ok evC4
    ∧ ∃ d1 d2, evC4.start = some (EventTime.date d1) ∧ evC4.end_ = some (EventTime.date d2) :=
  ⟨rfl, rfl,
    (mapYamlToEvent_allday_classification envT mappingsT dataC4 fileHT "body"
      "2024-05-01" "2024-05-01" evC4 rfl rfl rfl).1 (by decide)⟩

/-- Claim C2 (code bug evidence): on a task data map where the configured
start key is entirely absent, the mapper throws a TypeError when it
dereferences the raw value at the length check, instead of succeeding with
the value defaulted to now. -/
theorem mapYamlToEvent_absent_key_throws :
    mapYamlToEvent envT mappingsT [] fileHT "" =
      Except.error (JsError.typeError "Cannot read property length of undefined")
    ∧ getKey ([] : TaskData) mappingsT.start = none :=
  ⟨rfl, rfl⟩

/-- Claim C3 counterexample: deleting remote event AAA rewrites a note whose
only back-reference line holds the different id BBB, so a note whose
back-reference value differs from the deleted id is not left unchanged. -/
theorem removeGoogleEventIdField_nonmatching_removed :
    removeGoogleEventIdField "---\ngoogleEventId: BBB\n---\nbody" (some "AAA") = "---\n---\nbody"
    ∧ "---\n---\nbody" ≠ "---\ngoogleEventId: BBB\n---\nbody" :=
  ⟨rfl, by decide⟩

/-- Dropping a known member of the list makes the filtered list strictly
shorter. -/
theorem length_filter_lt_of_mem {α : Type} {p : α → Bool} {x : α}
    (hpx : p x = false) : ∀ {l : List α}, x ∈ l → (l.filter p).length < l.length := by
  intro l
  induction l with
  | nil => intro hx; cases hx
  | cons a as ih =>
    intro hx
    cases hx with
    | head =>
      have h := List.length_filter_le p as
      simp [List.filter_cons, hpx]
      omega
    | tail _ hx =>
      have h := ih hx
      cases hpa : p a <;> simp [List.filter_cons, hpa] <;> omega

/-- Claim C3 amended: after one event is deleted, the sweep over a note
removes exactly the attribute-block lines satisfying the implemented
condition, namely lines containing the text `googleEventId: <deletedId>` or
whose trimmed form starts with `googleEventId:` regardless of its value
(all other block lines and everything outside the block are kept); a note
with no such line in its attribute block - in particular one without an
attribute block at all - is left completely unchanged. -/
theorem removeGoogleEventIdField_spec (gid content : String) :
    (jsArrayIndexOf (jsSplit content "\n") "---" 0 = none →
      removeGoogleEventIdField content (some gid) = content)
    ∧ (∀ a, jsArrayIndexOf (jsSplit content "\n") "---" 0 = some a →
        jsArrayIndexOf (jsSplit content "\n") "---" (a + 1) = none →
        removeGoogleEventIdField content (some gid) = content)
    ∧ ∀ a b, jsArrayIndexOf (jsSplit content "\n") "---" 0 = some a →
        jsArrayIndexOf (jsSplit content "\n") "---" (a + 1) = some b →
        ((∀ l ∈ ((jsSplit content "\n").drop (a + 1)).take (b - (a + 1)),
            yamlLineRemoved gid l = false) →
          removeGoogleEventIdField content (some gid) = content)
        ∧ ((∃ l ∈ ((jsSplit content "\n").drop (a + 1)).take (b - (a + 1)),
            yamlLineRemoved gid l = true) →
          removeGoogleEventIdField content (some gid) =
            String.intercalate "\n"
              ((jsSplit content "\n").take (a + 1)
                ++ (((jsSplit content "\n").drop (a + 1)).take (b - (a + 1))).filter
                    (fun l => !yamlLineRemoved gid l)
                ++ (jsSplit content "\n").drop b)) := by
  refine ⟨?_, ?_, ?_⟩
  · intro hi
    unfold removeGoogleEventIdField
    simp [hi]
  · intro a ha hb
    unfold removeGoogleEventIdField
    simp [ha, hb]
  · intro a b ha hb
    constructor
    · intro hall
      unfold removeGoogleEventIdField
      simp only [ha, hb]
      have hfilter :
          (((jsSplit content "\n").drop (a + 1)).take (b - (a + 1))).filter
            (keepYamlLine (some gid)) =
          ((jsSplit content "\n").drop (a + 1)).take (b - (a + 1)) := by
        refine List.filter_eq_self.mpr ?_
        intro l hl
        rw [keepYamlLine_eq_not_removed, hall l hl]
        rfl
      simp [hfilter]
    · rintro ⟨l, hl, hrem⟩
      unfold removeGoogleEventIdField
      simp only [ha, hb]
      have hpred : ∀ x ∈ ((jsSplit content "\n").drop (a + 1)).take (b - (a + 1)),
          keepYamlLine (some gid) x = (fun y => !yamlLineRemoved gid y) x :=
        fun x _ => keepYamlLine_eq_not_removed gid x
      rw [List.filter_congr hpred]
      have hlt :
          ((((jsSplit content "\n").drop (a + 1)).take (b - (a + 1))).filter
            (fun y => !yamlLineRemoved gid y)).length <
          (((jsSplit content "\n").drop (a + 1)).take (b - (a + 1))).length :=
        length_filter_lt_of_mem (by simp [hrem]) hl
      rw [if_pos (Nat.ne_of_gt hlt)]

/-- Witness for the amended C3: a note whose block holds a non-matching
back-reference line has exactly that line stripped, and a note with no
back-reference line at all is returned unchanged. -/
theorem removeGoogleEventIdField_spec_witness :
    removeGoogleEventIdField "---\ngoogleEventId: BBB\n---\nbody" (some "AAA") = "---\n---\nbody"
    ∧ removeGoogleEventIdField "---\na: b\n---\nbody" (some "AAA") = "---\na: b\n---\nbody" :=
  ⟨((removeGoogleEventIdField_spec "AAA" "---\ngoogleEventId: BBB\n---\nbody").2.2 0 2
      rfl rfl).2 ⟨"googleEventId: BBB", by decide, by decide⟩,
   ((removeGoogleEventIdField_spec "AAA" "---\na: b\n---\nbody").2.2 0 2 rfl rfl).1 (by decide)⟩

/-- Claim C6: in quick mode with a stored checkpoint, a task is a candidate
exactly when its ctime or mtime is strictly greater than the checkpoint;
with no stored checkpoint the quick pass keeps exactly the candidate set of
a full pass. -/
theorem tasksToProcess_spec (t0 : Int) (tasks : List Task) :
    (∀ task, task ∈ tasksToProcess true (some (some t0)) tasks ↔
      task ∈ tasks ∧ (task.file.ctime > t0 ∨ task.file.mtime > t0))
    ∧ tasksToProcess true none tasks = tasks
    ∧ ∀ l, tasksToProcess false l tasks = tasks := by
  refine ⟨?_, rfl, fun l => rfl⟩
  intro task
  simp [tasksToProcess, List.mem_filter]

/-- Claim C7 counterexample: a note carrying the tag but living outside every
search folder is not returned by the extractor, so the extractor itself
performs folder filtering. -/
theorem fetchObsidianTasks_folder_filtered :
    fetchObsidianTasks [fileC7] (some rootT) "OPEN" "DONE" "task" = []
    ∧ fileC7.frontmatter = some { tags := some ["task"], fields := [] }
    ∧ "task" ∈ (["task"] : List String) :=
  ⟨rfl, rfl, by decide⟩

/-- Claim C7 amended: the extractor itself restricts candidates to notes
whose path starts with the search path of some discovered folder pair, and
among those returns exactly the notes whose cached front-matter holds a
tags list containing the tag (exact, case-sensitive element match). -/
theorem fetchObsidianTasks_spec (vault : World) (root : Option TFolder)
    (sName dName tag : String) (t : Task) :
    t ∈ fetchObsidianTasks vault root sName dName tag ↔
      ∃ f ∈ vault,
        (findMatchingFolderPairs root sName dName).any
          (fun pr => jsStartsWith f.path pr.2.searchPath) = true
        ∧ ∃ fm tags, f.frontmatter = some fm ∧ fm.tags = some tags ∧ tag ∈ tags
          ∧ t = { name := f.basename, data := fm.fields, file := f.handle } := by
  unfold fetchObsidianTasks
  constructor
  · intro ht
    rcases List.mem_filterMap.mp ht with ⟨f, hf, hg⟩
    rcases List.mem_filter.mp hf with ⟨hfv, hpath⟩
    refine ⟨f, hfv, hpath, ?_⟩
    cases hfm : f.frontmatter with
    | none => simp [hfm] at hg
    | some fm =>
      simp only [hfm] at hg
      cases htags : fm.tags with
      | none => simp [htags] at hg
      | some tags =>
        simp only [htags] at hg
        by_cases hc : tags.contains tag = true
        · rw [if_pos hc] at hg
          cases hg
          exact ⟨fm, tags, rfl, htags, List.elem_iff.mp hc, rfl⟩
        · rw [if_neg hc] at hg
          cases hg
  · rintro ⟨f, hfv, hpath, fm, tags, hfm, htags, htag, rfl⟩
    refine List.mem_filterMap.mpr ⟨f, List.mem_filter.mpr ⟨hfv, hpath⟩, ?_⟩
    simp only [hfm, htags, if_pos (List.elem_iff.mpr htag)]

/-- Claim C8 counterexample: with an expiry timestamp a full hour in the
future, the refresh is not skipped: the exchange runs and the persisted
encrypted credential blob changes. -/
theorem refreshAccessToken_ignores_expiry :
    clientC8.credentials.expiry_date = some (1700000000000 + 3600000)
    ∧ (refreshAccessToken oenvC8 settingsC8 (some clientC8)).1.encTokenData = some "enc-new"
    ∧ settingsC8.encTokenData = some "enc-old" :=
  ⟨rfl, rfl, rfl⟩

/-- Claim C8 amended: `refreshAccessToken` makes no expiry check at all; it
runs once per pass, performs the refresh-token exchange whenever a truthy
refresh token exists, persists the updated encrypted credential on success,
and degrades to a notice without crashing (state unchanged) when the
refresh token is missing or the exchange fails. -/
theorem refreshAccessToken_spec (oenv : OAuthEnv) (settings : PluginSettings) (c : OAuthClient) :
    (∀ newTokens, otruthy c.credentials.refresh_token = true →
      oenv.exchange c.credentials = .ok newTokens →
      refreshAccessToken oenv settings (some c) =
        ({ settings with encTokenData := some (oenv.encryptSerialize newTokens) },
         some { credentials := newTokens }, []))
    ∧ (otruthy c.credentials.refresh_token = false →
      refreshAccessToken oenv settings (some c) =
        (settings, some c, ["Failed to refresh access token."]))
    ∧ (∀ e, otruthy c.credentials.refresh_token = true →
      oenv.exchange c.credentials = .error e →
      refreshAccessToken oenv settings (some c) =
        (settings, some c, ["Failed to refresh access token."])) := by
  refine ⟨?_, ?_, ?_⟩
  · intro newTokens ht hex
    simp [refreshAccessToken, ht, hex]
  · intro hf
    simp [refreshAccessToken, hf]
  · intro e ht hex
    simp [refreshAccessToken, ht, hex]

/-- Witness for the amended C8 at the fixture client and oracle. -/
theorem refreshAccessToken_spec_witness :
    refreshAccessToken oenvT settingsT (some clientT) =
      ({ settingsT with encTokenData := some "enc2" },
       some { credentials := clientT.credentials }, []) :=
  (refreshAccessToken_spec oenvT settingsT clientT).1 clientT.credentials rfl rfl

/-- Claim C5: when a task carries a back-reference whose remote lookup
reports 404, the step does not fail: the 404 is absorbed, the task proceeds
as if it had no back-reference, and (when not delete-marked) a brand-new
event is created via insert whose id replaces the stale back-reference. -/
theorem processTask_notFound_creates
    (cfg : SyncCfg) (gw : Gateway) (env : JsEnv) (pairs : List (String × FolderPair))
    (w : World) (task : Task) (gid msg : String) (ev : CalendarEvent) (newId : String)
    (hgid : getKey task.data "googleEventId" = some gid)
    (hne : gid.isEmpty = false)
    (hget : gw.getr gid = .error { code := 404, message := msg })
    (hstatus : statusMatchesDelete cfg task.data = false)
    (hmap : mapYamlToEvent env cfg.fieldMappings task.data task.file
      (worldRead w task.file.path) = .ok ev)
    (hins : gw.insertr ev = .ok newId) :
    (processTask cfg gw env pairs w task).outcome = .completed
    ∧ (processTask cfg gw env pairs w task).calls = [.get gid, .insert ev]
    ∧ (processTask cfg gw env pairs w task).data = setKey task.data "googleEventId" newId := by
  unfold processTask createEventForTask
  simp [hgid, otruthy, hne, hget, hstatus, hmap, hins]

/-- Witness for C5 on the fixture task with the stale back-reference OLD. -/
theorem processTask_notFound_creates_witness :
    (processTask cfgT gwT envT pairsT worldT taskC5).outcome = Outcome.completed
    ∧ (processTask cfgT gwT envT pairsT worldT taskC5).calls =
        [RemoteCall.get "OLD", RemoteCall.insert evC5]
    ∧ (processTask cfgT gwT envT pairsT worldT taskC5).data =
        setKey taskC5.data "googleEventId" "E1" :=
  processTask_notFound_creates cfgT gwT envT pairsT worldT taskC5 "OLD" "Not Found" evC5 "E1"
    rfl rfl rfl rfl rfl rfl

/-- The deletion branch with no back-reference and a matched folder pair:
no remote call, note saved and renamed into the done folder, loop body left
through continue. -/
theorem processTask_deleteBranch_withPair
    (cfg : SyncCfg) (gw : Gateway) (env : JsEnv) (pairs : List (String × FolderPair))
    (w : World) (task : Task) (pr : String × FolderPair)
    (hstatus : statusMatchesDelete cfg task.data = true)
    (hng : otruthy (getKey task.data "googleEventId") = false)
    (hfind : pairs.find? (fun p => jsStartsWith task.file.path p.2.searchPath) = some pr)
    (hmove : env.renameErr task.file.path (pathJoin pr.2.donePath task.file.name) = none) :
    processTask cfg gw env pairs w task =
      { world := (saveTaskDataToYaml w task.file task.data).map
          (fun f => if f.path == task.file.path then
            { f with path := pathJoin pr.2.donePath task.file.name } else f)
        calls := []
        data := task.data
        file := { task.file with path := pathJoin pr.2.donePath task.file.name }
        outcome := .deletedBranch } := by
  unfold processTask moveTaskToFolder
  simp [hng, hstatus, hfind, hmove]

/-- The deletion branch with no back-reference and no matching folder pair:
no remote call, no move, the warning path just ends the iteration. -/
theorem processTask_deleteBranch_noPair
    (cfg : SyncCfg) (gw : Gateway) (env : JsEnv) (pairs : List (String × FolderPair))
    (w : World) (task : Task)
    (hstatus : statusMatchesDelete cfg task.data = true)
    (hng : otruthy (getKey task.data "googleEventId") = false)
    (hfind : pairs.find? (fun p => jsStartsWith task.file.path p.2.searchPath) = none) :
    processTask cfg gw env pairs w task =
      { world := saveTaskDataToYaml w task.file task.data
        calls := []
        data := task.data
        file := task.file
        outcome := .deletedBranch } := by
  unfold processTask
  simp [hng, hstatus, hfind]

/-- Claim C9: a delete-marked task without a back-reference triggers no
remote call; its note is moved into the paired done folder, the branch ends
processing (no create or update), and running the branch a second time from
the moved location (which no search path prefixes) again performs no remote
call and changes nothing. -/
theorem processTask_deleteBranch_idempotent
    (cfg : SyncCfg) (gw : Gateway) (env : JsEnv) (pairs : List (String × FolderPair))
    (w : World) (task : Task) (pr : String × FolderPair) (s1 s2 : StepOut)
    (hstatus : statusMatchesDelete cfg task.data = true)
    (hng : otruthy (getKey task.data "googleEventId") = false)
    (hfind : pairs.find? (fun p => jsStartsWith task.file.path p.2.searchPath) = some pr)
    (hmove : env.renameErr task.file.path (pathJoin pr.2.donePath task.file.name) = none)
    (hs1 : processTask cfg gw env pairs w task = s1)
    (hfind2 : pairs.find?
      (fun p => jsStartsWith (pathJoin pr.2.donePath task.file.name) p.2.searchPath) = none)
    (hs2 : processTask cfg gw env pairs s1.world
      { task with data := s1.data, file := s1.file } = s2) :
    s1.outcome = .deletedBranch ∧ s1.calls = [] ∧ s1.data = task.data
    ∧ s1.file.path = pathJoin pr.2.donePath task.file.name
    ∧ s2.outcome = .deletedBranch ∧ s2.calls = [] ∧ s2.data = s1.data ∧ s2.file = s1.file := by
  rw [processTask_deleteBranch_withPair cfg gw env pairs w task pr hstatus hng hfind hmove] at hs1
  subst hs1
  dsimp only at hs2
  rw [processTask_deleteBranch_noPair cfg gw env pairs _
      { task with data := task.data,
                  file := { task.file with path := pathJoin pr.2.donePath task.file.name } }
      hstatus hng hfind2] at hs2
  subst hs2
  exact ⟨rfl, rfl, rfl, rfl, rfl, rfl, rfl, rfl⟩

/-- Witness for C9: the fixture delete-marked task is moved to the done
folder with no remote traffic, and a second run changes nothing. -/
theorem processTask_deleteBranch_idempotent_witness :
    s1C9.outcome = Outcome.deletedBranch ∧ s1C9.calls = [] ∧ s1C9.data = taskC9.data
    ∧ s1C9.file.path = "Tasks/DONE/t1.md"
    ∧ s2C9.outcome = Outcome.deletedBranch ∧ s2C9.calls = [] ∧ s2C9.data = s1C9.data
    ∧ s2C9.file = s1C9.file :=
  processTask_deleteBranch_idempotent cfgT gwT envT pairsT worldT taskC9
    ("Tasks", { searchPath := "Tasks/OPEN", donePath := "Tasks/DONE" }) s1C9 s2C9
    rfl rfl rfl rfl rfl rfl rfl

/-- Claim C10: the back-reference is written into the task data and the note
only after the insert has returned successfully: when the mapping or the
insert call throws, the step ends with the vault and the task data
unchanged; when the insert succeeds, the data is extended with the new id
and that exact data is persisted. -/
theorem createEventForTask_writes_back_only_after_insert
    (cfg : SyncCfg) (gw : Gateway) (env : JsEnv) (pairs : List (String × FolderPair))
    (w : World) (task : Task)
    (hng : otruthy (getKey task.data "googleEventId") = false)
    (hstatus : statusMatchesDelete cfg task.data = false) :
    (∀ calls e, createEventForTask gw env cfg.fieldMappings w task = (calls, .error e) →
      (processTask cfg gw env pairs w task).world = w
      ∧ (processTask cfg gw env pairs w task).data = task.data
      ∧ (processTask cfg gw env pairs w task).outcome = .threw e)
    ∧ (∀ ev newId,
      mapYamlToEvent env cfg.fieldMappings task.data task.file
        (worldRead w task.file.path) = .ok ev →
      gw.insertr ev = .ok newId →
      createEventForTask gw env cfg.fieldMappings w task =
        ([.insert ev],
         .ok (saveTaskDataToYaml w task.file (setKey task.data "googleEventId" newId),
              setKey task.data "googleEventId" newId))) := by
  constructor
  · intro calls e hc
    unfold processTask
    simp [hng, hstatus, hc]
  · intro ev newId hmap hins
    unfold createEventForTask
    simp [hmap, hins]

/-- Witness for C10: a task whose start value does not parse makes the
creation fail, and the step leaves the vault and the data untouched. -/
theorem createEventForTask_writes_back_only_after_insert_witness :
    (processTask cfgT gwT envT pairsT worldT taskC10).world = worldT
    ∧ (processTask cfgT gwT envT pairsT worldT taskC10).data = taskC10.data
    ∧ (processTask cfgT gwT envT pairsT worldT taskC10).outcome =
        Outcome.threw (.error
          "Error creating event for task t1: Invalid time value for start (junk) or end (junk)") :=
  (createEventForTask_writes_back_only_after_insert cfgT gwT envT pairsT worldT taskC10
      rfl rfl).1
    [] (.error
      "Error creating event for task t1: Invalid time value for start (junk) or end (junk)") rfl

/-- A thrown step contributes its path-and-message line to the error log. -/
theorem stepLogs_mem {steps : List StepOut} {s : StepOut} {e : JsError}
    (hs : s ∈ steps) (he : s.outcome = .threw e) :
    errLogEntry s.file.path e.message ∈ steps.flatMap stepLogs :=
  List.mem_flatMap.mpr ⟨s, hs, by simp [stepLogs, he]⟩

/-- Claim C1: every pass that reaches the per-task loop runs one step per
candidate task (a throw in one task never aborts the rest), appends path
and message to the error log for every thrown task, counts thrown tasks
toward the processed count, and unconditionally sets the lastSyncDate
checkpoint to the ISO rendering of now at the end of the pass. -/
theorem syncPass_error_isolation
    (oenv : OAuthEnv) (gw : Gateway) (env : JsEnv) (settings : PluginSettings)
    (client0 : Option OAuthClient) (world : World) (rootFolder : Option TFolder)
    (tag : String) (isQuickSync : Bool) (out : PassOutput)
    (h : syncGoogleCalendarWithObsidian oenv gw env settings client0 world rootFolder
      tag isQuickSync = .ok out) :
    out.settings.lastSyncDate = some (env.isoString env.now)
    ∧ out.steps.length = out.totalTasks
    ∧ out.processedCount = (out.steps.filter (fun s => s.outcome.counted)).length
    ∧ ∀ s ∈ out.steps, ∀ e, s.outcome = .threw e →
        errLogEntry s.file.path e.message ∈ out.errorLogs := by
  simp only [syncGoogleCalendarWithObsidian] at h
  repeat' split at h
  all_goals try (solve | simp at h)
  all_goals
    simp only [Except.ok.injEq] at h
    subst h
    refine ⟨rfl, ?_, rfl, ?_⟩
    · exact runTaskLoop_length _ _ _ _ _ _
    · intro s hs e he
      exact stepLogs_mem hs he

/-- Witness for C1: the fixture pass reaches the loop, succeeds, and ends
with the checkpoint set and one step per candidate task. -/
theorem syncPass_error_isolation_witness :
    syncResT = Except.ok outT
    ∧ outT.settings.lastSyncDate = some (envT.isoString envT.now)
    ∧ outT.steps.length = outT.totalTasks :=
  have h : syncGoogleCalendarWithObsidian oenvT gwT envT settingsT (some clientT) worldT
      (some rootT) "task" false = Except.ok outT := rfl
  ⟨h,
    (syncPass_error_isolation oenvT gwT envT settingsT (some clientT) worldT (some rootT)
      "task" false outT h).1,
    (syncPass_error_isolation oenvT gwT envT settingsT (some clientT) worldT (some rootT)
      "task" false outT h).2.1⟩

end GCalSync
